import Mathlib

/-!
Shallow embedding of the NftTrader portal trading engine
(`src/services/portal/{models,strategy,storage,engine,config_loader}.py`)
and proofs of the stated properties.

Python `Decimal` prices are modelled as exact rationals (the spec's monetary
model: arithmetic at full precision, quantized only at explicit round points).
Python `int` is modelled as `ℤ`, `str` as `String`, `None`-able values as
`Option`.
-/

/-- `Decimal.quantize(Decimal("0.01"), rounding=ROUND_DOWN)` rounds toward
zero; this is the integer part of `x` taken toward zero. -/
def truncTowardZero (x : ℚ) : ℤ :=
  if 0 ≤ x then ⌊x⌋ else ⌈x⌉

/-- `q2` from `strategy.py`: quantize to two fractional digits, truncating
toward zero (`PRICE_STEP = Decimal("0.01")`, `ROUND_DOWN`). -/
def q2 (x : ℚ) : ℚ :=
  (truncTowardZero (x * 100) : ℚ) / 100

/-- `RuleSelector` from `models.py` (tuples become lists). -/
structure RuleSelector where
  collection_ids : List String := []
  gift_names : List String := []
  name_contains : List String := []
  models : List String := []
  backgrounds : List String := []
  only_recent_seconds : Option ℤ := none
deriving DecidableEq, Repr

/-- `RuleSelector.fingerprint` from `models.py`: the `"|"`-join of the
`","`-joins of the five lists and `str(only_recent_seconds or 0)`.
`pyJoin` mirrors Python `sep.join(parts)`. -/
def pyJoin (sep : String) : List String → String
  | [] => ""
  | [x] => x
  | x :: xs => x ++ sep ++ pyJoin sep xs

/-- Python `self.only_recent_seconds or 0`: `None` and `0` are falsy. -/
def RuleSelector.onlyRecentOrZero (s : RuleSelector) : ℤ :=
  match s.only_recent_seconds with
  | none => 0
  | some n => n

def RuleSelector.fingerprint (s : RuleSelector) : String :=
  pyJoin "|"
    [ pyJoin "," s.collection_ids
    , pyJoin "," s.gift_names
    , pyJoin "," s.name_contains
    , pyJoin "," s.models
    , pyJoin "," s.backgrounds
    , toString s.onlyRecentOrZero ]

/-- `OfferOrderRule` from `models.py`. -/
structure OfferOrderRule where
  name : String
  enabled : Bool := true
  mode : String := "offer"
  selector : RuleSelector := {}
  offer_factor : ℚ := 85/100
  min_offer : ℚ := 10/100
  max_offer : Option ℚ := none
  min_ask : Option ℚ := none
  max_ask : Option ℚ := none
  min_floor : Option ℚ := none
  max_floor : Option ℚ := none
  max_listing_to_floor : ℚ := 125/100
  min_discount_pct : Option ℚ := none
  max_discount_pct : Option ℚ := none
  outbid_step : ℚ := 1/100
  bump_if_outbid : Bool := true
  skip_crafted : Bool := true
  expiration_days : ℤ := 7
  expiration_seconds : Option ℤ := none
  max_actions_per_cycle : ℤ := 4
deriving DecidableEq, Repr

/-- `SellRule` from `models.py`. -/
structure SellRule where
  name : String
  enabled : Bool := true
  selector : RuleSelector := {}
  markup_pct : ℚ := 0
  floor_undercut_step : ℚ := 1/100
  min_sell_price : Option ℚ := none
  max_sell_price : Option ℚ := none
  auto_reprice_below_floor : Bool := true
  reprice_step : ℚ := 1/100
  expiration_days : ℤ := 7
  expiration_seconds : Option ℤ := none
deriving DecidableEq, Repr

/-- `LiquiditySettings` from `models.py`. -/
structure LiquiditySettings where
  enabled : Bool := true
  min_recent_sales : ℤ := 2
  min_sell_through : ℚ := 2/100
  max_floor_to_last_sale : Option ℚ := some (18/10)
deriving DecidableEq, Repr

/-- `MarketListing` from `models.py`; the untyped `raw` bag is not consulted
by any of the functions modelled here and is omitted. -/
structure MarketListing where
  nft_id : String
  name : String
  collection_id : String
  tg_id : String
  ask_price : Option ℚ
  floor_price : Option ℚ
  listed_at_ts : Option ℤ
  model : String
  background : String
  is_crafted : Bool
deriving DecidableEq, Repr

/-- Python `x or y` on an optional `Decimal`: `None` and `0` are falsy. -/
def pyOrOpt (x y : Option ℚ) : Option ℚ :=
  match x with
  | none => y
  | some v => if v = 0 then y else some v

/-- `bound is not None and x < bound`. -/
def belowOpt (x : ℚ) : Option ℚ → Bool
  | some b => decide (x < b)
  | none => false

/-- `bound is not None and x > bound`. -/
def aboveOpt (x : ℚ) : Option ℚ → Bool
  | some b => decide (b < x)
  | none => false

/-- `_apply_discount_bounds` from `strategy.py`. -/
def apply_discount_bounds (price floor : ℚ)
    (min_discount_pct max_discount_pct : Option ℚ) : ℚ :=
  let out := price
  let out := match min_discount_pct with
    | some mdp => min out (floor * (1 - mdp / 100))
    | none => out
  match max_discount_pct with
  | some xdp => max out (floor * (1 - xdp / 100))
  | none => out

/-- The candidate-construction tail of `evaluate_offer_price`
(`strategy.py` lines 219-240, after all rejection guards passed). -/
def evaluate_offer_price_tail (ask floor : ℚ) (rule : OfferOrderRule) :
    Option ℚ × String :=
  let candidate0 := q2 (floor * rule.offer_factor)
  let candidate1 := q2 (apply_discount_bounds candidate0 floor
    rule.min_discount_pct rule.max_discount_pct)
  let max_allowed := q2 (ask - rule.outbid_step)
  if max_allowed ≤ 0 then (none, "max_allowed_lte_zero")
  else
    let candidate2 := if max_allowed < candidate1 then max_allowed else candidate1
    let candidate3 := match rule.max_offer with
      | some mo => if mo < candidate2 then q2 mo else candidate2
      | none => candidate2
    if candidate3 < rule.min_offer then (none, "below_min_offer")
    else if candidate3 ≤ 0 then (none, "candidate_lte_zero")
    else (some candidate3, "ok")

/-- `evaluate_offer_price` from `strategy.py` (lines 199-240). -/
def evaluate_offer_price (listing : MarketListing) (rule : OfferOrderRule) :
    Option ℚ × String :=
  match listing.ask_price, pyOrOpt listing.floor_price listing.ask_price with
  | some ask, some floor =>
    if ask ≤ 0 ∨ floor ≤ 0 then (none, "invalid_prices")
    else if rule.skip_crafted ∧ listing.is_crafted then (none, "crafted")
    else if belowOpt ask rule.min_ask then (none, "ask_below_min")
    else if aboveOpt ask rule.max_ask then (none, "ask_above_max")
    else if belowOpt floor rule.min_floor then (none, "floor_below_min")
    else if aboveOpt floor rule.max_floor then (none, "floor_above_max")
    else if floor * rule.max_listing_to_floor < ask then (none, "ask_far_from_floor")
    else evaluate_offer_price_tail ask floor rule
  | _, _ => (none, "missing_prices")

/-- `compute_bump_price` from `strategy.py` (lines 270-286). -/
def compute_bump_price (own_price : ℚ) (competitor_price : Option ℚ)
    (step : ℚ) (cap_price : Option ℚ) : Option ℚ :=
  match competitor_price with
  | none => none
  | some competitor =>
    if competitor < own_price then none
    else
      let bumped := q2 (competitor + step)
      if bumped ≤ own_price then none
      else
        match cap_price with
        | some cap => if cap < bumped then none else some bumped
        | none => some bumped

/-- The bump rule exactly as the specification words it: `null` if the
competitor price is missing or `competitor < own`; else
`bumped = quantize2(competitor + step)`; `null` when `bumped ≤ own` or when
`cap` is set and `bumped > cap`; otherwise `bumped`. -/
def computeBumpPriceSpec (own : ℚ) (competitor : Option ℚ)
    (step : ℚ) (cap : Option ℚ) : Option ℚ :=
  match competitor with
  | none => none
  | some c =>
    if c < own then none
    else
      let bumped := q2 (c + step)
      if bumped ≤ own then none
      else if (match cap with | some cp => decide (cp < bumped) | none => false) then none
      else some bumped

/-- `pass_liquidity` from `strategy.py` (lines 158-179).  The sell-through
ratio `Decimal(recent)/Decimal(active)` is modelled as the exact rational
quotient. -/
def pass_liquidity (listing : MarketListing) (liquidity : LiquiditySettings)
    (recent_sales_count : ℤ) (total_active_listings : ℤ)
    (last_sale_price : Option ℚ) : Bool :=
  if liquidity.enabled = false then true
  else if recent_sales_count < liquidity.min_recent_sales then false
  else if 0 < total_active_listings ∧
      (recent_sales_count : ℚ) / (total_active_listings : ℚ) < liquidity.min_sell_through then
    false
  else
    match liquidity.max_floor_to_last_sale, last_sale_price with
    | some mf, some ls =>
      match listing.floor_price with
      | some fp => if 0 < ls ∧ mf < fp / ls then false else true
      | none => true
    | _, _ => true

/-- `AccountWorker._seen_add` from `engine.py` (lines 91-97).  The seen cache
is an insertion-ordered dict; `next(iter(...))` is its first (oldest) key and
is evicted when the bound is exceeded. -/
def seen_add (seen_cache_size : ℕ) (seen : List String) (nft_id : String) :
    List String :=
  if nft_id ∈ seen then seen
  else
    let s := seen ++ [nft_id]
    if seen_cache_size < s.length then s.tail else s

/-! ## Trade ledger (`storage.py`) -/

/-- `TradeEvent` from `models.py`.  The untyped `raw` dict is only ever
serialized (`json.dumps`) into the stored row; it is modelled by its
serialized form. -/
structure TradeEvent where
  account : String
  event_id : String
  kind : String
  nft_id : String
  gift_name : String
  model : String
  background : String
  price : ℚ
  fee : ℚ
  ts : ℤ
  raw_json : String
deriving DecidableEq, Repr

/-- A row of the `events` table (`storage.py` lines 41-55).  The `TEXT`
price/fee columns hold the decimal digits of the exact values. -/
structure EventRow where
  account : String
  event_id : String
  kind : String
  nft_id : String
  gift_name : String
  model : String
  background : String
  price : ℚ
  fee : ℚ
  ts : ℤ
  payload_json : String
deriving DecidableEq, Repr

/-- A row of the `positions` table (`storage.py` lines 59-72), primary key
`(account, nft_id)`. -/
structure PositionRow where
  account : String
  nft_id : String
  gift_name : String
  model : String
  background : String
  buy_price : ℚ
  buy_ts : ℤ
  sell_price : ℚ
  sell_ts : ℤ
  status : String
deriving DecidableEq, Repr

/-- The two tables of the ledger database. -/
structure LedgerState where
  events : List EventRow
  positions : List PositionRow
deriving DecidableEq, Repr

/-- `SELECT 1 FROM events WHERE account = ? AND event_id = ?`. -/
def findEvent (st : LedgerState) (acct eid : String) : Option EventRow :=
  st.events.find? (fun r => decide (r.account = acct ∧ r.event_id = eid))

/-- `SELECT ... FROM positions WHERE account = ? AND nft_id = ?`. -/
def findPos (positions : List PositionRow) (acct nft : String) :
    Option PositionRow :=
  positions.find? (fun r => decide (r.account = acct ∧ r.nft_id = nft))

/-- Replace the row with the same `(account, nft_id)` primary key
(`INSERT ... ON CONFLICT(account, nft_id) DO UPDATE` /
`UPDATE ... WHERE account = ? AND nft_id = ?`). -/
def upsertPos : List PositionRow → PositionRow → List PositionRow
  | [], row => [row]
  | r :: rs, row =>
    if r.account = row.account ∧ r.nft_id = row.nft_id then row :: rs
    else r :: upsertPos rs row

/-- `TradeLedger.record_trade` from `storage.py` (lines 84-185): reject a
duplicate `(account, event_id)` before any write; otherwise insert the event
row and mutate `positions` (a buy upserts an open position keeping any
recorded sell columns of a conflicting row; a sell updates whatever position
row exists preserving its buy columns, or inserts a fresh closed row with
`buy_price = '0'`). -/
def record_trade (st : LedgerState) (e : TradeEvent) : Bool × LedgerState :=
  match findEvent st e.account e.event_id with
  | some _ => (false, st)
  | none =>
    let row : EventRow :=
      { account := e.account, event_id := e.event_id, kind := e.kind,
        nft_id := e.nft_id, gift_name := e.gift_name, model := e.model,
        background := e.background, price := e.price, fee := e.fee,
        ts := e.ts, payload_json := e.raw_json }
    let events := st.events ++ [row]
    let positions :=
      if e.kind = "buy" then
        match findPos st.positions e.account e.nft_id with
        | some old =>
          upsertPos st.positions
            { old with
              gift_name := e.gift_name
              model := e.model
              background := e.background
              buy_price := e.price
              buy_ts := e.ts
              status := "open" }
        | none =>
          st.positions ++
            [{ account := e.account, nft_id := e.nft_id,
               gift_name := e.gift_name, model := e.model,
               background := e.background, buy_price := e.price,
               buy_ts := e.ts, sell_price := 0, sell_ts := 0,
               status := "open" }]
      else if e.kind = "sell" then
        match findPos st.positions e.account e.nft_id with
        | none =>
          st.positions ++
            [{ account := e.account, nft_id := e.nft_id,
               gift_name := e.gift_name, model := e.model,
               background := e.background, buy_price := 0, buy_ts := 0,
               sell_price := e.price, sell_ts := e.ts, status := "closed" }]
        | some old =>
          upsertPos st.positions
            { old with
              gift_name := e.gift_name
              model := e.model
              background := e.background
              sell_price := e.price
              sell_ts := e.ts
              status := "closed" }
      else st.positions
    (true, { events := events, positions := positions })

/-- Concrete trade events for exercising `record_trade`: a buy of nft `n`
at 5, a first sell at 6, and a second sell at 7 with a fresh event id. -/
def cexBuyEvent : TradeEvent :=
  { account := "a", event_id := "e1", kind := "buy", nft_id := "n",
    gift_name := "g", model := "m", background := "b", price := 5,
    fee := 0, ts := 1, raw_json := "r1" }

def cexSellEvent1 : TradeEvent :=
  { account := "a", event_id := "e2", kind := "sell", nft_id := "n",
    gift_name := "g", model := "m", background := "b", price := 6,
    fee := 0, ts := 2, raw_json := "r2" }

def cexSellEvent2 : TradeEvent :=
  { account := "a", event_id := "e3", kind := "sell", nft_id := "n",
    gift_name := "g", model := "m", background := "b", price := 7,
    fee := 0, ts := 3, raw_json := "r3" }

/-- The ledger after recording the buy and the first sell on an empty
database. -/
def cexLedger2 : LedgerState :=
  (record_trade
    (record_trade { events := [], positions := [] } cexBuyEvent).2
    cexSellEvent1).2

/-! ## Order maintenance (`engine.py`) -/

/-- `ManagedAction` from `models.py`.  The `extra` payload only ever holds
string-valued entries (`selector_to_order_payload` output or a `tg_id`). -/
structure ManagedAction where
  key : String
  kind : String
  rule_name : String
  remote_id : Option String
  nft_id : Option String
  selector_key : String
  price : ℚ
  cap_price : Option ℚ
  created_ts : ℤ
  expires_ts : Option ℤ
  extra : List (String × String) := []
deriving DecidableEq, Repr

/-- `selector_to_order_payload` from `strategy.py` (lines 380-390). -/
def selector_to_order_payload (selector : RuleSelector) : List (String × String) :=
  (match selector.collection_ids with
    | c :: _ => [("collection_id", c)]
    | [] => []) ++
  (match selector.gift_names with
    | g :: _ => [("gift_name", g)]
    | [] => []) ++
  (match selector.models with
    | m :: _ => [("model", m)]
    | [] => []) ++
  (match selector.backgrounds with
    | b :: _ => [("background", b)]
    | [] => [])

/-- `AccountWorker._build_order_action_key` (`engine.py` lines 102-103). -/
def build_order_action_key (rule : OfferOrderRule) : String :=
  "order:" ++ rule.name ++ ":" ++ rule.selector.fingerprint

/-- One observable side effect of the order-maintenance path, in program
order: a remote cancel call, the local `dict.pop`, a remote place call, the
local table store. -/
inductive EngineOp where
  | cancelOrderCall (remote_id : String)
  | popActionOp (key : String)
  | placeOrderCall (price : ℚ)
  | storeActionOp (key : String)
deriving DecidableEq, Repr

/-- A worker's action table (`self._actions`, an insertion-ordered dict with
unique keys) together with the trace of side effects performed so far. -/
structure OrderWorkerState where
  actions : List (String × ManagedAction)
  trace : List EngineOp
deriving DecidableEq, Repr

/-- `self._actions.get(key)`. -/
def getAction (l : List (String × ManagedAction)) (k : String) :
    Option ManagedAction :=
  (l.find? (fun p => decide (p.1 = k))).map Prod.snd

/-- `self._actions[key] = action`. -/
def setAction : List (String × ManagedAction) → String → ManagedAction →
    List (String × ManagedAction)
  | [], k, a => [(k, a)]
  | (k0, a0) :: t, k, a =>
    if k0 = k then (k, a) :: t else (k0, a0) :: setAction t k a

/-- `self._actions.pop(key, None)`. -/
def popAction : List (String × ManagedAction) → String →
    List (String × ManagedAction)
  | [], _ => []
  | (k0, a0) :: t, k => if k0 = k then t else (k0, a0) :: popAction t k

/-- `AccountWorker._create_order` from `engine.py` (lines 349-402).  The
remote `place_order` response is abstracted by `placed_remote_id`
(the result of `infer_remote_id`, `""` when absent) and the wall clock by
`now`. -/
def create_order (dry_run : Bool) (placed_remote_id : String) (now : ℤ)
    (st : OrderWorkerState) (rule : OfferOrderRule) (price : ℚ)
    (cap_price : Option ℚ) : OrderWorkerState :=
  let key := build_order_action_key rule
  let expires_ts : Option ℤ := match rule.expiration_seconds with
    | some s => if s = 0 then none else some (now + s)
    | none => none
  if dry_run then
    { actions := setAction st.actions key
        { key := key, kind := "order", rule_name := rule.name,
          remote_id := some ("dry-" ++ key), nft_id := none,
          selector_key := rule.selector.fingerprint, price := price,
          cap_price := cap_price, created_ts := now, expires_ts := expires_ts,
          extra := selector_to_order_payload rule.selector }
      trace := st.trace ++ [EngineOp.storeActionOp key] }
  else
    { actions := setAction st.actions key
        { key := key, kind := "order", rule_name := rule.name,
          remote_id := if placed_remote_id = "" then none
            else some placed_remote_id,
          nft_id := none, selector_key := rule.selector.fingerprint,
          price := price, cap_price := cap_price, created_ts := now,
          expires_ts := expires_ts,
          extra := selector_to_order_payload rule.selector }
      trace := st.trace ++
        [EngineOp.placeOrderCall price, EngineOp.storeActionOp key] }

/-- `AccountWorker._replace_order` from `engine.py` (lines 404-425).
`cancel_ok = false` means the remote `cancel_order` call raises; the
exception propagates to the caller (which catches and logs it) before any
local mutation, so the state carries only the attempted call. -/
def replace_order (dry_run cancel_ok : Bool) (placed_remote_id : String)
    (now : ℤ) (st : OrderWorkerState) (action : ManagedAction)
    (rule : OfferOrderRule) (new_price : ℚ) (cap_price : Option ℚ) :
    Bool × OrderWorkerState :=
  if dry_run then
    (true,
      { actions := setAction st.actions action.key
          { action with
            price := new_price
            cap_price := cap_price }
        trace := st.trace ++ [EngineOp.storeActionOp action.key] })
  else
    match action.remote_id with
    | some rid =>
      if rid = "" then
        -- Python `if action.remote_id:` is false for an empty id: no cancel
        (true, create_order false placed_remote_id now
          { actions := popAction st.actions action.key
            trace := st.trace ++ [EngineOp.popActionOp action.key] }
          rule new_price cap_price)
      else if cancel_ok then
        (true, create_order false placed_remote_id now
          { actions := popAction st.actions action.key
            trace := st.trace ++ [EngineOp.cancelOrderCall rid,
              EngineOp.popActionOp action.key] }
          rule new_price cap_price)
      else
        (false,
          { actions := st.actions
            trace := st.trace ++ [EngineOp.cancelOrderCall rid] })
    | none =>
      (true, create_order false placed_remote_id now
        { actions := popAction st.actions action.key
          trace := st.trace ++ [EngineOp.popActionOp action.key] }
        rule new_price cap_price)

/-- A concrete order-kind managed action, its rule, and a worker state whose
table holds exactly that action. -/
def cexOrderAction : ManagedAction :=
  { key := "k", kind := "order", rule_name := "r", remote_id := some "rid1",
    nft_id := none, selector_key := "", price := 1, cap_price := none,
    created_ts := 0, expires_ts := none, extra := [] }

def cexOrderRule : OfferOrderRule :=
  { name := "r", mode := "order" }

def cexOrderState : OrderWorkerState :=
  { actions := [("k", cexOrderAction)], trace := [] }

/-- Elements admissible as selector entries for a collision-free
fingerprint: nonempty and free of both join separators. -/
@[reducible]
def sepFreeElems (l : List String) : Prop :=
  ∀ e ∈ l, e ≠ "" ∧ ',' ∉ e.data ∧ '|' ∉ e.data

/-- All five list fields of a selector satisfy `sepFreeElems`. -/
@[reducible]
def RuleSelector.sepFree (s : RuleSelector) : Prop :=
  sepFreeElems s.collection_ids ∧ sepFreeElems s.gift_names ∧
    sepFreeElems s.name_contains ∧ sepFreeElems s.models ∧
    sepFreeElems s.backgrounds

/-! ## Configuration loader (`config_loader.py`) -/

/-- A JSON value as loaded by Python: `null` doubles as Python `None`
(a missing key and an explicit `null` both read back as `None`). -/
inductive JVal where
  | jnull
  | jbool (b : Bool)
  | jnum (q : ℚ)
  | jstr (s : String)
  | jarr (xs : List JVal)
  | jobj (fields : List (String × JVal))

open JVal

/-- A JSON object / Python dict: first binding for a key wins, so
`update` can be modelled by prepending. -/
abbrev Jd := List (String × JVal)

/-- `d.get(k)`: `None` (here `jnull`) when the key is absent. -/
def pyGet (d : Jd) (k : String) : JVal :=
  match List.find? (fun p => decide (p.1 = k)) d with
  | some p => p.2
  | none => jnull

/-- `d.get(k, default)`. -/
def pyGetD (d : Jd) (k : String) (dflt : JVal) : JVal :=
  match List.find? (fun p => decide (p.1 = k)) d with
  | some p => p.2
  | none => dflt

/-- `k in d`. -/
def jdHasKey (d : Jd) (k : String) : Bool :=
  (List.find? (fun p => decide (p.1 = k)) d).isSome

/-- `d.pop(k, None)`. -/
def jdPop (d : Jd) (k : String) : Jd :=
  List.filter (fun p => decide (p.1 ≠ k)) d

/-- Python truthiness of a JSON value. -/
def pyTruthy : JVal → Bool
  | jnull => false
  | jbool b => b
  | jnum q => decide (q ≠ 0)
  | jstr s => decide (s ≠ "")
  | jarr [] => false
  | jarr (_ :: _) => true
  | jobj [] => false
  | jobj (_ :: _) => true

/-- Python `a or b`. -/
def pyOr (a b : JVal) : JVal :=
  if pyTruthy a then a else b

/-- `str.strip()` (over the unicode whitespace predicate). -/
def pyStripChars (cs : List Char) : List Char :=
  ((cs.dropWhile Char.isWhitespace).reverse.dropWhile Char.isWhitespace).reverse

def pyStrip (s : String) : String :=
  ⟨pyStripChars s.data⟩

/-- `str.lower()`, character-wise. -/
def pyLower (s : String) : String :=
  ⟨s.data.map Char.toLower⟩

/-- Python `str(value)` for the scalar shapes that occur in strategy
documents.  Container and numeric values are rendered canonically; the
loader paths proved about never render them (they appear only inside
`_normalize_list` items and name fields of the documents considered). -/
def pyStr : JVal → String
  | jnull => "None"
  | jbool true => "True"
  | jbool false => "False"
  | jnum q => toString q
  | jstr s => s
  | jarr _ => "[…]"
  | jobj _ => "{…}"

/-- The numeral value of a digit run. -/
def digitsVal (cs : List Char) : ℕ :=
  cs.foldl (fun a c => 10 * a + (c.toNat - 48)) 0

/-- The decimal-literal fragment of the `Decimal(str)` constructor grammar
that strategy documents use: optional sign, digits with at most one point
(exponent and special forms never occur in the modelled documents). -/
def parseDecSigned (cs : List Char) : Option ℚ :=
  match cs.splitOn '.' with
  | [ip] =>
    if ip ≠ [] ∧ ip.all Char.isDigit then some ((digitsVal ip : ℚ)) else none
  | [ip, fp] =>
    if (ip ≠ [] ∨ fp ≠ []) ∧ ip.all Char.isDigit ∧ fp.all Char.isDigit then
      some ((digitsVal ip : ℚ) + (digitsVal fp : ℚ) / ((10 : ℚ) ^ fp.length))
    else none
  | _ => none

def parseDec (s : String) : Option ℚ :=
  match s.data with
  | '-' :: t => (parseDecSigned t).map (fun q => -q)
  | '+' :: t => parseDecSigned t
  | t => parseDecSigned t

/-- `_to_decimal(value, field_name)` from `config_loader.py` (lines 30-34):
`Decimal(str(value))`, `RuntimeError` on parse failure.  A JSON number
carries its exact literal value (Python's shortest float repr recovers the
written literal, which `Decimal` then parses exactly). -/
def _to_decimal (v : JVal) (field_name : String) : Except String ℚ :=
  match v with
  | jnum q => .ok q
  | jstr s =>
    match parseDec s with
    | some q => .ok q
    | none => .error ("Bad decimal for " ++ field_name)
  | _ => .error ("Bad decimal for " ++ field_name)

/-- `_to_optional_decimal` from `config_loader.py` (lines 37-43). -/
def _to_optional_decimal (v : JVal) (field_name : String) :
    Except String (Option ℚ) :=
  match v with
  | jnull => .ok none
  | jstr s =>
    if pyStrip s = "" then .ok none
    else (_to_decimal (jstr (pyStrip s)) field_name).map some
  | v => (_to_decimal v field_name).map some

/-- `_to_bool` from `config_loader.py` (lines 46-58). -/
def _to_bool (v : JVal) (dflt : Bool) : Bool :=
  match v with
  | jnull => dflt
  | jbool b => b
  | jnum q => decide (q ≠ 0)
  | jstr s =>
    let t := pyLower (pyStrip s)
    if t = "1" ∨ t = "true" ∨ t = "yes" ∨ t = "y" ∨ t = "on" then true
    else if t = "0" ∨ t = "false" ∨ t = "no" ∨ t = "n" ∨ t = "off" then false
    else dflt
  | _ => dflt

/-- Python `int(value)`: truncation for numbers, digit parsing for strings,
`True`/`False` as 1/0; anything else raises. -/
def pyInt (v : JVal) : Except String ℤ :=
  match v with
  | jnum q => .ok (truncTowardZero q)
  | jbool b => .ok (if b then 1 else 0)
  | jstr s =>
    match pyStripChars s.data with
    | '-' :: t => if t ≠ [] ∧ t.all Char.isDigit then .ok (-(digitsVal t : ℤ))
      else .error ("invalid literal for int: " ++ s)
    | '+' :: t => if t ≠ [] ∧ t.all Char.isDigit then .ok ((digitsVal t : ℤ))
      else .error ("invalid literal for int: " ++ s)
    | t => if t ≠ [] ∧ t.all Char.isDigit then .ok ((digitsVal t : ℤ))
      else .error ("invalid literal for int: " ++ s)
  | _ => .error "int() argument must be a number or string"

/-- `_normalize_list` from `config_loader.py` (lines 61-74):
lower-cased, stripped, deduplicated and sorted entries. -/
def _normalize_list (v : JVal) : List String :=
  match v with
  | jstr s =>
    let parts := (s.splitOn ",").map (fun x => pyLower (pyStrip x))
    let parts := parts.filter (fun x => decide (x ≠ ""))
    (parts.dedup).mergeSort (fun a b => decide (a ≤ b))
  | jarr xs =>
    let out := xs.map (fun item => pyLower (pyStrip (pyStr item)))
    let out := out.filter (fun x => decide (x ≠ ""))
    (out.dedup).mergeSort (fun a b => decide (a ≤ b))
  | _ => []

/-- `_parse_selector` from `config_loader.py` (lines 100-112).  The `int()`
call on `only_recent_seconds` can raise, so the parse is fallible. -/
def _parse_selector (raw : Jd) : Except String RuleSelector := do
  let m : Jd := match pyGet raw "match" with
    | jobj f => f
    | _ => []
  let onlyRaw := pyOr (pyOr (pyGet m "only_recent_seconds")
    (pyGet raw "only_recent_seconds")) (jnum 0)
  let onlyInt ← pyInt onlyRaw
  return {
    collection_ids := _normalize_list
      (pyOr (pyGet m "collection_ids") (pyGet raw "collection_ids"))
    gift_names := _normalize_list
      (pyOr (pyGet m "gift_names") (pyGet raw "gift_names"))
    name_contains := _normalize_list
      (pyOr (pyGet m "name_contains") (pyGet raw "name_contains"))
    models := _normalize_list
      (pyOr (pyGet m "models") (pyGet raw "models"))
    backgrounds := _normalize_list
      (pyOr (pyGet m "backgrounds") (pyGet raw "backgrounds"))
    only_recent_seconds := if onlyInt = 0 then none else some onlyInt }

/-- `max(lo, min(hi, x))` on `ℤ`. -/
def clampInt (lo hi x : ℤ) : ℤ := max lo (min hi x)

/-- `_parse_offer_rule` from `config_loader.py` (lines 115-160).  Note: no
relation between the `min_*`/`max_*` bounds is checked anywhere. -/
def _parse_offer_rule (raw : Jd) (name_fallback : String) (mode : String) :
    Except String OfferOrderRule := do
  let name0 := pyStrip (pyStr (pyGetD raw "name" (jstr name_fallback)))
  let name := if name0 = "" then name_fallback else name0
  let offer_data : Jd := match pyGet raw "offer" with
    | jobj f => f
    | _ => []
  let filter_data : Jd := match pyGet raw "filters" with
    | jobj f => f
    | _ => []
  let merged := jdPop (jdPop (jdPop (raw ++ offer_data ++ filter_data)
    "offer") "filters") "match"
  let selector ← _parse_selector raw
  let offer_factor ← _to_decimal (pyGetD merged "offer_factor" (jstr "0.85"))
    (name ++ ".offer_factor")
  let min_offer ← _to_decimal (pyGetD merged "min_offer" (jstr "0.10"))
    (name ++ ".min_offer")
  let max_offer ← _to_optional_decimal (pyGet merged "max_offer")
    (name ++ ".max_offer")
  let min_ask ← _to_optional_decimal (pyGet merged "min_ask")
    (name ++ ".min_ask")
  let max_ask ← _to_optional_decimal (pyGet merged "max_ask")
    (name ++ ".max_ask")
  let min_floor ← _to_optional_decimal (pyGet merged "min_floor")
    (name ++ ".min_floor")
  let max_floor ← _to_optional_decimal (pyGet merged "max_floor")
    (name ++ ".max_floor")
  let max_listing_to_floor ← _to_decimal
    (pyGetD merged "max_listing_to_floor" (jstr "1.25"))
    (name ++ ".max_listing_to_floor")
  let min_discount_pct ← _to_optional_decimal (pyGet merged "min_discount_pct")
    (name ++ ".min_discount_pct")
  let max_discount_pct ← _to_optional_decimal (pyGet merged "max_discount_pct")
    (name ++ ".max_discount_pct")
  let outbid_step ← _to_decimal (pyGetD merged "outbid_step" (jstr "0.01"))
    (name ++ ".outbid_step")
  let expiration_days ← pyInt (pyGetD merged "expiration_days" (jnum 7))
  let expiration_seconds ← (if pyTruthy (pyGet merged "expiration_seconds")
    then (pyInt (pyGet merged "expiration_seconds")).map some
    else .ok none)
  let max_actions_per_cycle ← pyInt
    (pyGetD merged "max_actions_per_cycle" (jnum 4))
  let mode0 := pyLower (pyStrip (pyStr (pyGetD raw "mode" (jstr mode))))
  return {
    name := name
    enabled := _to_bool (pyGet raw "enabled") true
    mode := if mode0 = "" then mode else mode0
    selector := selector
    offer_factor := offer_factor
    min_offer := min_offer
    max_offer := max_offer
    min_ask := min_ask
    max_ask := max_ask
    min_floor := min_floor
    max_floor := max_floor
    max_listing_to_floor := max_listing_to_floor
    min_discount_pct := min_discount_pct
    max_discount_pct := max_discount_pct
    outbid_step := outbid_step
    bump_if_outbid := _to_bool (pyGet merged "bump_if_outbid") true
    skip_crafted := _to_bool (pyGet merged "skip_crafted") true
    expiration_days := clampInt 1 30 expiration_days
    expiration_seconds := expiration_seconds
    max_actions_per_cycle := max 1 max_actions_per_cycle }

/-- `_parse_sell_rule` from `config_loader.py` (lines 163-181). -/
def _parse_sell_rule (raw : Jd) (name_fallback : String) :
    Except String SellRule := do
  let name0 := pyStrip (pyStr (pyGetD raw "name" (jstr name_fallback)))
  let name := if name0 = "" then name_fallback else name0
  let selector ← _parse_selector raw
  let markup_pct ← _to_decimal (pyGetD raw "markup_pct" (jstr "0"))
    (name ++ ".markup_pct")
  let floor_undercut_step ← _to_decimal
    (pyGetD raw "floor_undercut_step" (jstr "0.01"))
    (name ++ ".floor_undercut_step")
  let min_sell_price ← _to_optional_decimal (pyGet raw "min_sell_price")
    (name ++ ".min_sell_price")
  let max_sell_price ← _to_optional_decimal (pyGet raw "max_sell_price")
    (name ++ ".max_sell_price")
  let reprice_step ← _to_decimal (pyGetD raw "reprice_step" (jstr "0.01"))
    (name ++ ".reprice_step")
  let expiration_days ← pyInt (pyGetD raw "expiration_days" (jnum 7))
  let expiration_seconds ← (if pyTruthy (pyGet raw "expiration_seconds")
    then (pyInt (pyGet raw "expiration_seconds")).map some
    else .ok none)
  return {
    name := name
    enabled := _to_bool (pyGet raw "enabled") true
    selector := selector
    markup_pct := markup_pct
    floor_undercut_step := floor_undercut_step
    min_sell_price := min_sell_price
    max_sell_price := max_sell_price
    auto_reprice_below_floor := _to_bool (pyGet raw "auto_reprice_below_floor") true
    reprice_step := reprice_step
    expiration_days := clampInt 1 30 expiration_days
    expiration_seconds := expiration_seconds }

/-- `_legacy_strategy_bridge` from `config_loader.py` (lines 322-349). -/
def _legacy_strategy_bridge (raw : Jd) : Jd :=
  if jdHasKey raw "offer_rules" ∨ jdHasKey raw "order_rules" ∨
      jdHasKey raw "sell_rules" then raw
  else
    let defaults : Jd :=
      (match pyGet raw "defaults" with | jobj f => f | _ => []) ++
      (match pyGet raw "global_filters" with | jobj f => f | _ => []) ++
      (match pyGet raw "global_offer" with | jobj f => f | _ => [])
    let rules : List JVal := match pyGet raw "rules" with
      | jarr xs => xs
      | _ => []
    let offer_rules : List JVal :=
      (rules.enum.filterMap (fun p =>
        match p.2 with
        | jobj item => some (jobj (item ++ defaults ++
            [("name", pyGetD item "name" (jstr ("rule_" ++ toString (p.1 + 1))))]))
        | _ => none))
    let offer_rules := match offer_rules, defaults with
      | [], _ :: _ => [jobj (defaults ++ [("name", jstr "default_offer_rule")])]
      | x, _ => x
    let bridged := ("offer_rules", jarr offer_rules) :: raw
    let bridged := if jdHasKey bridged "order_rules" then bridged
      else bridged ++ [("order_rules", jarr [])]
    if jdHasKey bridged "sell_rules" then bridged
    else bridged ++ [("sell_rules", jarr [])]

/-- `enumerate(...)` + `isinstance(item, dict)` + `_parse_offer_rule` over a
rule array (`load_app_config` lines 379-388). -/
def parseOfferRules (nameBase : String) (mode : String) :
    List JVal → ℕ → Except String (List OfferOrderRule)
  | [], _ => .ok []
  | jobj f :: t, idx => do
    let r ← _parse_offer_rule f (nameBase ++ toString (idx + 1)) mode
    let rest ← parseOfferRules nameBase mode t (idx + 1)
    return r :: rest
  | _ :: t, idx => parseOfferRules nameBase mode t (idx + 1)

def parseSellRules : List JVal → ℕ → Except String (List SellRule)
  | [], _ => .ok []
  | jobj f :: t, idx => do
    let r ← _parse_sell_rule f ("sell_rule_" ++ toString (idx + 1))
    let rest ← parseSellRules t (idx + 1)
    return r :: rest
  | _ :: t, idx => parseSellRules t (idx + 1)

/-- The strategy-document portion of `load_app_config`
(`config_loader.py` lines 362, 369-393 and 405-413): legacy bridging, the
three rule arrays, and the fallback default offer rule.  File access,
accounts and auth resolution are effectful and outside this slice. -/
def load_rule_sets (doc : Jd) :
    Except String (List OfferOrderRule × List OfferOrderRule × List SellRule) := do
  let raw := _legacy_strategy_bridge doc
  let offer_raw : List JVal := match pyGetD raw "offer_rules" (jarr []) with
    | jarr xs => xs
    | _ => []
  let order_raw : List JVal := match pyGetD raw "order_rules" (jarr []) with
    | jarr xs => xs
    | _ => []
  let sell_raw : List JVal := match pyGetD raw "sell_rules" (jarr []) with
    | jarr xs => xs
    | _ => []
  let offer_rules ← parseOfferRules "offer_rule_" "offer" offer_raw 0
  let order_rules ← parseOfferRules "order_rule_" "order" order_raw 0
  let sell_rules ← parseSellRules sell_raw 0
  let offer_rules := match offer_rules with
    | [] =>
      [{ name := "default_offer_rule", enabled := true, mode := "offer",
         selector := {} }]
    | x => x
  return (offer_rules, order_rules, sell_rules)

/-- A one-rule strategy document whose four `min_*`/`max_*` pairs carry
arbitrary values (in particular inverted ones). -/
def invertedDoc (q1 q2 q3 q4 q5 q6 q7 q8 : ℚ) : Jd :=
  [("offer_rules", jarr [jobj
    [("name", jstr "r1"),
     ("min_ask", jnum q1), ("max_ask", jnum q2),
     ("min_floor", jnum q3), ("max_floor", jnum q4),
     ("min_offer", jnum q5), ("max_offer", jnum q6),
     ("min_discount_pct", jnum q7), ("max_discount_pct", jnum q8),
     ("offer_factor", jnum (85/100)),
     ("max_listing_to_floor", jnum (125/100)),
     ("outbid_step", jnum (1/100)),
     ("expiration_days", jstr "7"),
     ("max_actions_per_cycle", jstr "4"),
     ("only_recent_seconds", jstr "60")]])]

/-! ## Timestamps (`strategy.py` `parse_unix_ts` and the spec round-trip) -/

/-- Proleptic-Gregorian leap year. -/
def isLeap (y : ℕ) : Bool :=
  decide ((y % 4 = 0 ∧ y % 100 ≠ 0) ∨ y % 400 = 0)

def daysInMonth (leap : Bool) (m : ℕ) : ℕ :=
  if m = 2 then (if leap then 29 else 28)
  else if m = 4 ∨ m = 6 ∨ m = 9 ∨ m = 11 then 30
  else 31

def daysInYear (y : ℕ) : ℕ :=
  if isLeap y then 366 else 365

/-- Days in months `1..k` of a (non-)leap year. -/
def sumDim (leap : Bool) : ℕ → ℕ
  | 0 => 0
  | k + 1 => sumDim leap k + daysInMonth leap (k + 1)

/-- Peel whole years off a day count, starting at year `y`. -/
def yearSplit (y n : ℕ) : ℕ × ℕ :=
  if n < daysInYear y then (y, n)
  else yearSplit (y + 1) (n - daysInYear y)
termination_by n
decreasing_by
  by_cases hL : isLeap y = true <;> simp_all [daysInYear] <;> omega

/-- Peel whole months off a day-of-year count, starting at month `m`. -/
def monthSplit (leap : Bool) (m n : ℕ) : ℕ × ℕ :=
  if 12 ≤ m then (m, n)
  else if n < daysInMonth leap m then (m, n)
  else monthSplit leap (m + 1) (n - daysInMonth leap m)
termination_by 13 - m

/-- Civil UTC date-time of a non-negative unix timestamp. -/
def civilFromUnix (t : ℕ) : ℕ × ℕ × ℕ × ℕ × ℕ × ℕ :=
  let days := t / 86400
  let rem := t % 86400
  let p := yearSplit 1970 days
  let q := monthSplit (isLeap p.1) 1 p.2
  (p.1, q.1, q.2 + 1, rem / 3600, rem % 3600 / 60, rem % 60)

def pad2 (n : ℕ) : List Char :=
  [Nat.digitChar (n / 10), Nat.digitChar (n % 10)]

def pad4 (n : ℕ) : List Char :=
  [Nat.digitChar (n / 1000), Nat.digitChar (n / 100 % 10),
   Nat.digitChar (n / 10 % 10), Nat.digitChar (n % 10)]

/-- Modelled from the spec: `formatIsoZ(t)` — the repository has no
formatter under `src/`; §8 of the spec postulates one producing an
ISO-8601 UTC string with a `Z` suffix (`%Y-%m-%dT%H:%M:%SZ`,
zero-padded). -/
def formatIsoZ (t : ℕ) : String :=
  match civilFromUnix t with
  | (y, m, d, hh, mi, ss) =>
    ⟨pad4 y ++ '-' :: (pad2 m ++ '-' :: (pad2 d ++ 'T' :: (pad2 hh ++
      ':' :: (pad2 mi ++ ':' :: (pad2 ss ++ ['Z'])))))⟩

/-- Numeric value of a decimal digit character. -/
def dVal (c : Char) : ℕ := c.toNat - 48

/-- The common `%Y-%m-%dT%H:%M:%S` prefix of the two `strptime` formats of
`parse_unix_ts`, restricted to the zero-padded component widths that the
formatter emits (CPython's regex also admits un-padded one-digit fields,
which never occur in formatter output). -/
def parseDT (cs : List Char) :
    Option ((ℕ × ℕ × ℕ × ℕ × ℕ × ℕ) × List Char) :=
  match cs with
  | a :: b :: c :: d :: '-' :: e :: f :: '-' :: g :: h :: 'T' :: i :: j ::
      ':' :: k :: l :: ':' :: m :: n :: rest =>
    if ([a, b, c, d, e, f, g, h, i, j, k, l, m, n].all Char.isDigit) then
      some ((1000 * dVal a + 100 * dVal b + 10 * dVal c + dVal d,
        10 * dVal e + dVal f, 10 * dVal g + dVal h,
        10 * dVal i + dVal j, 10 * dVal k + dVal l, 10 * dVal m + dVal n),
        rest)
    else none
  | _ => none

/-- `strptime` with `"%Y-%m-%dT%H:%M:%S.%fZ"`: fractional part of one to
six digits, then the literal `Z`, then end of input. -/
def strptimeFmt1 (cs : List Char) : Option (ℕ × ℕ × ℕ × ℕ × ℕ × ℕ) :=
  match parseDT cs with
  | some (v, '.' :: more) =>
    let ds := more.takeWhile Char.isDigit
    let rest := more.dropWhile Char.isDigit
    if 1 ≤ ds.length ∧ ds.length ≤ 6 ∧ rest = ['Z'] then some v else none
  | _ => none

/-- `strptime` with `"%Y-%m-%dT%H:%M:%SZ"`. -/
def strptimeFmt2 (cs : List Char) : Option (ℕ × ℕ × ℕ × ℕ × ℕ × ℕ) :=
  match parseDT cs with
  | some (v, ['Z']) => some v
  | _ => none

/-- The `datetime` constructor's field validation. -/
def validDT (y mo d hh mi ss : ℕ) : Bool :=
  decide (1 ≤ y ∧ y ≤ 9999 ∧ 1 ≤ mo ∧ mo ≤ 12 ∧ 1 ≤ d ∧
    d ≤ daysInMonth (isLeap y) mo ∧ hh ≤ 23 ∧ mi ≤ 59 ∧ ss ≤ 59)

/-- `_days_before_year` from CPython's `datetime` module:
`(y-1)*365 + (y-1)//4 - (y-1)//100 + (y-1)//400`. -/
def _days_before_year (y : ℕ) : ℕ :=
  365 * (y - 1) + (y - 1) / 4 - (y - 1) / 100 + (y - 1) / 400

/-- `_days_before_month` from CPython's `datetime` module (table plus leap
adjustment after February). -/
def _days_before_month (leap : Bool) (m : ℕ) : ℕ :=
  (match m with
    | 1 => 0 | 2 => 31 | 3 => 59 | 4 => 90 | 5 => 120 | 6 => 151
    | 7 => 181 | 8 => 212 | 9 => 243 | 10 => 273 | 11 => 304 | 12 => 334
    | _ => 0) +
  (if 2 < m ∧ leap = true then 1 else 0)

/-- `date.toordinal()`. -/
def toordinal (y m d : ℕ) : ℕ :=
  _days_before_year y + _days_before_month (isLeap y) m + d

/-- `int(datetime(y,mo,d,hh,mi,ss, tzinfo=utc).timestamp())`:
`719163 = date(1970,1,1).toordinal()`. -/
def datetimeTimestamp (y mo d hh mi ss : ℕ) : ℤ :=
  ((toordinal y mo d : ℤ) - 719163) * 86400 + hh * 3600 + mi * 60 + ss

/-- `strptime` attempt of one format followed by the `datetime`
constructor: a parse or validation failure is a `ValueError`, making
`parse_unix_ts` try the next format. -/
def tryFormat (fmt : List Char → Option (ℕ × ℕ × ℕ × ℕ × ℕ × ℕ))
    (cs : List Char) : Option ℤ :=
  match fmt cs with
  | some (y, mo, d, hh, mi, ss) =>
    if validDT y mo d hh mi ss then some (datetimeTimestamp y mo d hh mi ss)
    else none
  | none => none

/-- The string branch of `parse_unix_ts` (`strategy.py` lines 39-57):
strip, the all-digits fast path with the millisecond threshold, then the
two `strptime` formats.  The final `fromisoformat` fallback (lines 53-57)
is reached only when both formats fail and is modelled as a parse
failure; the round-trip theorem shows formatter output is accepted by the
second format, so the fallback is never taken on such input. -/
def parse_unix_ts_str (s : String) : Option ℤ :=
  let text := pyStrip s
  if text.data = [] then none
  else if text.data.all Char.isDigit then
    let ts := digitsVal text.data
    if 10000000000 < ts then some (((ts / 1000 : ℕ) : ℤ))
    else some ((ts : ℤ))
  else
    match tryFormat strptimeFmt1 text.data with
    | some v => some v
    | none =>
      match tryFormat strptimeFmt2 text.data with
      | some v => some v
      | none => none

/-! ## Helper lemmas about quantization -/

theorem truncTowardZero_intCast (n : ℤ) : truncTowardZero (n : ℚ) = n := by
  unfold truncTowardZero
  split <;> simp

theorem q2_idem (x : ℚ) : q2 (q2 x) = q2 x := by
  unfold q2
  rw [div_mul_cancel₀ _ (by norm_num : (100 : ℚ) ≠ 0), truncTowardZero_intCast]

theorem q2_le_self (x : ℚ) (h : 0 ≤ x) : q2 x ≤ x := by
  unfold q2 truncTowardZero
  rw [if_pos (by positivity)]
  rw [div_le_iff₀ (by norm_num : (0:ℚ) < 100)]
  exact Int.floor_le _

theorem q2_nonpos (x : ℚ) (h : x ≤ 0) : q2 x ≤ 0 := by
  unfold q2 truncTowardZero
  rcases eq_or_lt_of_le h with h0 | h0
  · subst h0; norm_num
  · have hneg : x * 100 < 0 := mul_neg_of_neg_of_pos h0 (by norm_num)
    rw [if_neg (not_le.mpr hneg)]
    have hc : (⌈x * 100⌉ : ℚ) ≤ 0 := by
      have : ⌈x * 100⌉ ≤ (0 : ℤ) := Int.ceil_le.mpr (by exact_mod_cast le_of_lt hneg)
      exact_mod_cast this
    exact div_nonpos_of_nonpos_of_nonneg hc (by norm_num)

theorem pyOrOpt_some_ne_none (x : Option ℚ) (a : ℚ) :
    pyOrOpt x (some a) ≠ none := by
  cases x with
  | none => simp [pyOrOpt]
  | some v => by_cases hv : v = 0 <;> simp [pyOrOpt, hv]

/-- C1. For every listing with `ask_price` set and every rule, a price `p`
returned by `evaluate_offer_price` with reason `"ok"` satisfies
`min_offer ≤ p`, `p ≤ quantize2(ask - outbid_step)`, `p ≤ max_offer` when
set, and `p = quantize2(p)`. -/
theorem evaluate_offer_price_ok_bounds
    (listing : MarketListing) (rule : OfferOrderRule) (a p : ℚ)
    (hask : listing.ask_price = some a)
    (hok : evaluate_offer_price listing rule = (some p, "ok")) :
    rule.min_offer ≤ p ∧ p ≤ q2 (a - rule.outbid_step) ∧
      (∀ mo, rule.max_offer = some mo → p ≤ mo) ∧ q2 p = p := by
  unfold evaluate_offer_price at hok
  rw [hask] at hok
  rcases hfl : pyOrOpt listing.floor_price (some a) with _ | floor
  · exact absurd hfl (pyOrOpt_some_ne_none _ _)
  rw [hfl] at hok
  simp only [] at hok
  split at hok
  · exact Option.noConfusion (congrArg Prod.fst hok)
  split at hok
  · exact Option.noConfusion (congrArg Prod.fst hok)
  split at hok
  · exact Option.noConfusion (congrArg Prod.fst hok)
  split at hok
  · exact Option.noConfusion (congrArg Prod.fst hok)
  split at hok
  · exact Option.noConfusion (congrArg Prod.fst hok)
  split at hok
  · exact Option.noConfusion (congrArg Prod.fst hok)
  split at hok
  · exact Option.noConfusion (congrArg Prod.fst hok)
  unfold evaluate_offer_price_tail at hok
  simp only [] at hok
  set c1 := q2 (apply_discount_bounds (q2 (floor * rule.offer_factor)) floor
      rule.min_discount_pct rule.max_discount_pct) with hc1
  set M := q2 (a - rule.outbid_step) with hMdef
  split at hok
  · exact Option.noConfusion (congrArg Prod.fst hok)
  next hM =>
  push_neg at hM
  set c2 := if M < c1 then M else c1 with hc2
  set c3 := (match rule.max_offer with
      | some mo => if mo < c2 then q2 mo else c2
      | none => c2) with hc3
  split at hok
  · exact Option.noConfusion (congrArg Prod.fst hok)
  split at hok
  · exact Option.noConfusion (congrArg Prod.fst hok)
  next hmin hpos =>
  push_neg at hmin hpos
  have hpeq : p = c3 := (Option.some.inj (congrArg Prod.fst hok)).symm
  subst hpeq
  have hc2_le_M : c2 ≤ M := by
    rw [hc2]; split
    · exact le_refl M
    · next hnot => exact le_of_not_lt hnot
  have hc2_q2 : q2 c2 = c2 := by
    rw [hc2]; split
    · rw [hMdef]; exact q2_idem _
    · rw [hc1]; exact q2_idem _
  refine ⟨hmin, ?_, ?_, ?_⟩
  · rw [hc3]
    rcases hmo : rule.max_offer with _ | mo
    · simpa using hc2_le_M
    · simp only []
      split
      · next hlt =>
        rcases le_or_lt 0 mo with hmo0 | hmo0
        · calc q2 mo ≤ mo := q2_le_self mo hmo0
            _ ≤ c2 := le_of_lt hlt
            _ ≤ M := hc2_le_M
        · exfalso
          have hq : q2 mo ≤ 0 := q2_nonpos mo (le_of_lt hmo0)
          have hc3pos : 0 < c3 := hpos
          rw [hc3, hmo] at hc3pos
          simp only [if_pos hlt] at hc3pos
          linarith
      · exact hc2_le_M
  · intro mo hmo
    rw [hc3, hmo]
    simp only []
    split
    · next hlt =>
      rcases le_or_lt 0 mo with hmo0 | hmo0
      · exact q2_le_self mo hmo0
      · exfalso
        have hq : q2 mo ≤ 0 := q2_nonpos mo (le_of_lt hmo0)
        have hc3pos : 0 < c3 := hpos
        rw [hc3, hmo] at hc3pos
        simp only [if_pos hlt] at hc3pos
        linarith
    · next hnlt => exact le_of_not_lt hnlt
  · rw [hc3]
    rcases hmo : rule.max_offer with _ | mo
    · simpa using hc2_q2
    · simp only []
      split
      · exact q2_idem mo
      · exact hc2_q2

theorem evaluate_offer_price_ok_bounds_witness :
    ({ name := "r" } : OfferOrderRule).min_offer ≤ (85/100 : ℚ) ∧
      (85/100 : ℚ) ≤ q2 (1 - ({ name := "r" } : OfferOrderRule).outbid_step) ∧
      (∀ mo, ({ name := "r" } : OfferOrderRule).max_offer = some mo → (85/100 : ℚ) ≤ mo) ∧
      q2 (85/100) = 85/100 :=
  evaluate_offer_price_ok_bounds
    { nft_id := "n1", name := "g", collection_id := "c", tg_id := "t",
      ask_price := some 1, floor_price := some 1, listed_at_ts := none,
      model := "", background := "", is_crafted := false }
    { name := "r" } 1 (85/100) rfl
    (by norm_num [evaluate_offer_price, pyOrOpt, belowOpt, aboveOpt,
      evaluate_offer_price_tail, apply_discount_bounds, q2, truncTowardZero])

/-- C5. `compute_bump_price` agrees with the specification's description of
the bump rule on all inputs, and on the spec's literal example bumps
`own = 0.80`, `competitor = 0.85`, `step = 0.01` to `0.86` under cap `0.99`
and refuses the bump under cap `0.85`. -/
theorem compute_bump_price_correct :
    (∀ own competitor step cap,
        compute_bump_price own competitor step cap =
          computeBumpPriceSpec own competitor step cap) ∧
      compute_bump_price (80/100) (some (85/100)) (1/100) (some (99/100)) =
        some (86/100) ∧
      compute_bump_price (80/100) (some (85/100)) (1/100) (some (85/100)) = none := by
  refine ⟨fun own competitor step cap => ?_, ?_, ?_⟩
  · cases competitor with
    | none => rfl
    | some c =>
      cases cap with
      | none => simp [compute_bump_price, computeBumpPriceSpec]
      | some cp => simp [compute_bump_price, computeBumpPriceSpec]
  · norm_num [compute_bump_price, q2, truncTowardZero]
  · norm_num [compute_bump_price, q2, truncTowardZero]

theorem seen_add_length_le (size : ℕ) (seen : List String) (id : String)
    (h : seen.length ≤ size) : (seen_add size seen id).length ≤ size := by
  unfold seen_add
  split
  · exact h
  · simp only []
    split
    · next hlen =>
      simp only [List.length_tail, List.length_append, List.length_singleton]
      omega
    · next hlen => exact le_of_not_lt hlen

/-- C8. After any sequence of inserts into an (initially empty) seen cache,
the number of entries is at most `seen_cache_size`. -/
theorem seen_cache_bounded (size : ℕ) (inserts : List String) :
    (inserts.foldl (seen_add size) []).length ≤ size := by
  have aux : ∀ (l seen : List String), seen.length ≤ size →
      (l.foldl (seen_add size) seen).length ≤ size := by
    intro l
    induction l with
    | nil => intro seen h; simpa using h
    | cons x xs ih => intro seen h; exact ih _ (seen_add_length_le size seen x h)
  exact aux inserts [] (by simp)

/-- C10. When the liquidity settings are disabled, `pass_liquidity` admits
every listing regardless of all threshold inputs. -/
theorem pass_liquidity_disabled (listing : MarketListing)
    (liquidity : LiquiditySettings) (recent_sales_count : ℤ)
    (total_active_listings : ℤ) (last_sale_price : Option ℚ)
    (hdis : liquidity.enabled = false) :
    pass_liquidity listing liquidity recent_sales_count total_active_listings
      last_sale_price = true := by
  simp [pass_liquidity, hdis]

theorem pass_liquidity_disabled_witness :
    pass_liquidity
      { nft_id := "n1", name := "g", collection_id := "c", tg_id := "t",
        ask_price := some 1, floor_price := some (5/2), listed_at_ts := none,
        model := "", background := "", is_crafted := false }
      { enabled := false } (-7) 0 (some (1/10)) = true :=
  pass_liquidity_disabled _ _ _ _ _ rfl

/-! ## Ledger lemmas -/

theorem findPos_upsert (l : List PositionRow) (row : PositionRow)
    (a n : String) (ha : row.account = a) (hn : row.nft_id = n) :
    findPos (upsertPos l row) a n = some row := by
  induction l with
  | nil =>
    simp [upsertPos, findPos, List.find?, ha, hn]
  | cons r rs ih =>
    unfold upsertPos
    split
    · next hk =>
      simp [findPos, List.find?, ha, hn]
    · next hk =>
      have hr : ¬ (r.account = a ∧ r.nft_id = n) := by
        rw [← ha, ← hn]; exact hk
      simp only [findPos, List.find?]
      rw [decide_eq_false hr]
      exact ih

theorem findPos_append_single (l : List PositionRow) (row : PositionRow)
    (a n : String) (ha : row.account = a) (hn : row.nft_id = n)
    (h : findPos l a n = none) :
    findPos (l ++ [row]) a n = some row := by
  unfold findPos at *
  rw [List.find?_append, h]
  simp [List.find?, ha, hn]

theorem findPos_key (l : List PositionRow) (a n : String) (r : PositionRow)
    (h : findPos l a n = some r) : r.account = a ∧ r.nft_id = n := by
  have := List.find?_some h
  exact of_decide_eq_true this

/-- C2. Recording the same trade event a second time returns `false` and
leaves both the events table and the positions table unchanged. -/
theorem record_trade_idempotent (st : LedgerState) (e : TradeEvent) :
    record_trade (record_trade st e).2 e = (false, (record_trade st e).2) := by
  rcases h : findEvent st e.account e.event_id with _ | r
  · -- the first call inserted the event row; the second lookup finds it
    obtain ⟨r2, h2⟩ : ∃ r2,
        findEvent (record_trade st e).2 e.account e.event_id = some r2 := by
      unfold record_trade
      rw [h]
      simp only [findEvent, List.find?_append]
      unfold findEvent at h
      rw [h]
      simp [List.find?]
    generalize (record_trade st e).2 = s' at h2 ⊢
    unfold record_trade
    rw [h2]
  · -- the first call was already a duplicate: state unchanged both times
    have hst : (record_trade st e).2 = st := by
      unfold record_trade; rw [h]
    rw [hst]
    unfold record_trade; rw [h]


/-- C3 counterexample.  Starting from an empty ledger, record a buy of nft
`n` at 5, a sell at 6 (closing the position), then a second sell at 7 with a
fresh event id.  Before the third event the only position row for
`("a", "n")` is `closed` — no open position exists — so the claim requires
the recorded sell to create a closed position with `buy_price = 0`.  The
code instead updates the existing closed row and preserves
`buy_price = 5 ≠ 0`. -/
theorem record_trade_sell_closed_cex :
    cexLedger2.positions =
      [{ account := "a", nft_id := "n", gift_name := "g", model := "m",
         background := "b", buy_price := 5, buy_ts := 1, sell_price := 6,
         sell_ts := 2, status := "closed" }] ∧
    (record_trade cexLedger2 cexSellEvent2).1 = true ∧
    (record_trade cexLedger2 cexSellEvent2).2.positions =
      [{ account := "a", nft_id := "n", gift_name := "g", model := "m",
         background := "b", buy_price := 5, buy_ts := 1, sell_price := 7,
         sell_ts := 3, status := "closed" }] ∧
    (5 : ℚ) ≠ 0 := by
  refine ⟨rfl, rfl, rfl, by norm_num⟩

/-- C3 amended.  For a successfully recorded event: a buy leaves the
position for `(account, nft_id)` open with `buy_price` equal to the event
price; a sell updates the existing position row — open **or closed** —
to `closed`, preserving its `buy_price`; only when no position row exists at
all does it insert a fresh closed position with `buy_price = 0`. -/
theorem record_trade_position_invariant (st : LedgerState) (e : TradeEvent)
    (hfresh : findEvent st e.account e.event_id = none) :
    (e.kind = "buy" →
      ∃ p, findPos (record_trade st e).2.positions e.account e.nft_id = some p ∧
        p.status = "open" ∧ p.buy_price = e.price) ∧
    (e.kind = "sell" → ∀ old,
      findPos st.positions e.account e.nft_id = some old →
      findPos (record_trade st e).2.positions e.account e.nft_id = some
        { old with
          gift_name := e.gift_name
          model := e.model
          background := e.background
          sell_price := e.price
          sell_ts := e.ts
          status := "closed" }) ∧
    (e.kind = "sell" →
      findPos st.positions e.account e.nft_id = none →
      findPos (record_trade st e).2.positions e.account e.nft_id = some
        { account := e.account, nft_id := e.nft_id, gift_name := e.gift_name,
          model := e.model, background := e.background, buy_price := 0,
          buy_ts := 0, sell_price := e.price, sell_ts := e.ts,
          status := "closed" }) := by
  refine ⟨?_, ?_, ?_⟩
  · intro hb
    unfold record_trade
    rw [hfresh]
    simp only [hb]
    rcases hp : findPos st.positions e.account e.nft_id with _ | old
    · simp only [hp]
      refine ⟨_, findPos_append_single _ _ _ _ rfl rfl hp, rfl, rfl⟩
    · simp only [hp]
      obtain ⟨hoa, hon⟩ := findPos_key st.positions e.account e.nft_id old hp
      exact ⟨_, findPos_upsert _ _ _ _ hoa hon, rfl, rfl⟩
  · intro hs old hp
    unfold record_trade
    rw [hfresh]
    simp only [hs]
    rw [hp]
    obtain ⟨hoa, hon⟩ := findPos_key st.positions e.account e.nft_id old hp
    exact findPos_upsert _ _ _ _ hoa hon
  · intro hs hp
    unfold record_trade
    rw [hfresh]
    simp only [hs]
    rw [hp]
    exact findPos_append_single _ _ _ _ rfl rfl hp

theorem record_trade_position_invariant_witness :
    findPos (record_trade cexLedger2 cexSellEvent2).2.positions "a" "n" =
      some { account := "a", nft_id := "n", gift_name := "g", model := "m",
             background := "b", buy_price := 5, buy_ts := 1, sell_price := 7,
             sell_ts := 3, status := "closed" } :=
  (record_trade_position_invariant cexLedger2 cexSellEvent2 rfl).2.1 rfl
    { account := "a", nft_id := "n", gift_name := "g", model := "m",
      background := "b", buy_price := 5, buy_ts := 1, sell_price := 6,
      sell_ts := 2, status := "closed" } rfl

/-- C4. Replacing an order-kind managed action at a new price in live mode
performs the remote cancel, then the local pop, then the creation of the new
action, in that order; and when the remote cancel raises, the action table
is untouched, so the original action is still present with its price
unchanged. -/
theorem replace_order_spec (placed_remote_id : String) (now : ℤ)
    (st : OrderWorkerState) (action : ManagedAction) (rule : OfferOrderRule)
    (new_price : ℚ) (cap_price : Option ℚ) (rid : String)
    (hrid : action.remote_id = some rid) (hne : rid ≠ "")
    (hmem : getAction st.actions action.key = some action) :
    (replace_order false true placed_remote_id now st action rule new_price
        cap_price).2.trace =
      st.trace ++ [EngineOp.cancelOrderCall rid, EngineOp.popActionOp action.key,
        EngineOp.placeOrderCall new_price,
        EngineOp.storeActionOp (build_order_action_key rule)] ∧
    (replace_order false false placed_remote_id now st action rule new_price
        cap_price).1 = false ∧
    (replace_order false false placed_remote_id now st action rule new_price
        cap_price).2.actions = st.actions ∧
    getAction (replace_order false false placed_remote_id now st action rule
        new_price cap_price).2.actions action.key = some action := by
  unfold replace_order
  rw [hrid]
  refine ⟨?_, ?_, ?_, ?_⟩
  · simp [hne, create_order, List.append_assoc]
  · simp [hne]
  · simp [hne]
  · simp [hne, hmem]

theorem replace_order_spec_witness :
    (replace_order false true "nid" 5 cexOrderState cexOrderAction
        cexOrderRule 2 none).2.trace =
      cexOrderState.trace ++ [EngineOp.cancelOrderCall "rid1",
        EngineOp.popActionOp cexOrderAction.key, EngineOp.placeOrderCall 2,
        EngineOp.storeActionOp (build_order_action_key cexOrderRule)] ∧
    (replace_order false false "nid" 5 cexOrderState cexOrderAction
        cexOrderRule 2 none).1 = false ∧
    (replace_order false false "nid" 5 cexOrderState cexOrderAction
        cexOrderRule 2 none).2.actions = cexOrderState.actions ∧
    getAction (replace_order false false "nid" 5 cexOrderState cexOrderAction
        cexOrderRule 2 none).2.actions cexOrderAction.key =
      some cexOrderAction :=
  replace_order_spec "nid" 5 cexOrderState cexOrderAction cexOrderRule 2 none
    "rid1" rfl (by decide) rfl

/-! ## Fingerprint lemmas -/

theorem strData_inj {s t : String} (h : s.data = t.data) : s = t := by
  cases s; cases t; exact congrArg String.mk h

theorem strData_nil {s : String} (h : s.data = []) : s = "" :=
  strData_inj h

theorem pyJoin_data (sep : String) (l : List String) :
    (pyJoin sep l).data = List.intercalate sep.data (l.map String.data) := by
  induction l with
  | nil => simp [pyJoin, List.intercalate]
  | cons x t ih =>
    cases t with
    | nil => simp [pyJoin, List.intercalate]
    | cons y t2 =>
      simp only [pyJoin, String.data_append, List.map]
      rw [ih]
      simp [List.intercalate, List.intersperse]

theorem mem_intercalate {α : Type} {c : α} (sep : List α) (L : List (List α))
    (h : c ∈ List.intercalate sep L) : c ∈ sep ∨ ∃ l ∈ L, c ∈ l := by
  induction L with
  | nil => simp [List.intercalate] at h
  | cons x t ih =>
    cases t with
    | nil =>
      simp only [List.intercalate, List.intersperse, List.flatten] at h
      simp at h
      exact Or.inr ⟨x, by simp, h⟩
    | cons y t2 =>
      rw [show List.intercalate sep (x :: y :: t2) =
          x ++ sep ++ List.intercalate sep (y :: t2) from by
            simp [List.intercalate, List.intersperse]] at h
      rcases List.mem_append.mp h with h1 | h2
      · rcases List.mem_append.mp h1 with ha | hb
        · exact Or.inr ⟨x, by simp, ha⟩
        · exact Or.inl hb
      · rcases ih h2 with h3 | ⟨l, hl, hc⟩
        · exact Or.inl h3
        · exact Or.inr ⟨l, by simp [hl], hc⟩

theorem intercalate_head {α : Type} (sep y : List α) (t : List (List α)) :
    ∃ r, List.intercalate sep (y :: t) = y ++ r := by
  cases t with
  | nil => exact ⟨[], by simp [List.intercalate]⟩
  | cons z t2 =>
    exact ⟨sep ++ List.intercalate sep (z :: t2),
      by simp [List.intercalate, List.intersperse, List.append_assoc]⟩

theorem intercalate_inj_single {α : Type} [DecidableEq α] (x : α)
    (L1 L2 : List (List α))
    (hx1 : ∀ l ∈ L1, x ∉ l) (hx2 : ∀ l ∈ L2, x ∉ l)
    (hne1 : L1 ≠ []) (hne2 : L2 ≠ [])
    (h : List.intercalate [x] L1 = List.intercalate [x] L2) : L1 = L2 := by
  have e1 := List.splitOn_intercalate L1 x hx1 hne1
  rw [h] at e1
  rw [List.splitOn_intercalate L2 x hx2 hne2] at e1
  exact e1.symm

theorem digitChar_isDigit : ∀ k, k < 10 → (Nat.digitChar k).isDigit = true := by
  decide

theorem toDigitsCore_digits (f : ℕ) : ∀ (n : ℕ) (l : List Char),
    (∀ c ∈ l, c.isDigit = true) →
    ∀ c ∈ Nat.toDigitsCore 10 f n l, c.isDigit = true := by
  induction f with
  | zero =>
    intro n l hl c hc
    simpa [Nat.toDigitsCore] using hl c (by simpa [Nat.toDigitsCore] using hc)
  | succ f ih =>
    intro n l hl c hc
    have hd : ∀ c ∈ Nat.digitChar (n % 10) :: l, c.isDigit = true := by
      intro c' hc'
      rcases List.mem_cons.mp hc' with h | h
      · rw [h]; exact digitChar_isDigit _ (Nat.mod_lt _ (by norm_num))
      · exact hl c' h
    by_cases h0 : n / 10 = 0
    · simp only [Nat.toDigitsCore, h0, if_true] at hc
      exact hd c hc
    · simp only [Nat.toDigitsCore, h0, if_false] at hc
      exact ih (n / 10) (Nat.digitChar (n % 10) :: l) hd c hc

theorem natRepr_digits (n : ℕ) : ∀ c ∈ (Nat.repr n).data, c.isDigit = true := by
  intro c hc
  exact toDigitsCore_digits (n + 1) n [] (by simp) c hc

theorem intRepr_chars (z : ℤ) :
    ∀ c ∈ (Int.repr z).data, c.isDigit = true ∨ c = '-' := by
  intro c hc
  cases z with
  | ofNat m => exact Or.inl (natRepr_digits m c hc)
  | negSucc m =>
    rw [show Int.repr (Int.negSucc m) = "-" ++ Nat.repr (m + 1) from rfl,
      String.data_append] at hc
    rcases List.mem_append.mp hc with h1 | h2
    · right
      rw [show ("-" : String).data = ['-'] from rfl] at h1
      simpa using h1
    · exact Or.inl (natRepr_digits (m + 1) c h2)

theorem intRepr_no_pipe (z : ℤ) : '|' ∉ (toString z).data := by
  intro hmem
  rcases intRepr_chars z '|' hmem with h | h
  · exact absurd h (by decide)
  · exact absurd h (by decide)

theorem pyJoin_comma_no_pipe (L : List String)
    (h : ∀ e ∈ L, '|' ∉ e.data) : '|' ∉ (pyJoin "," L).data := by
  intro hmem
  rw [pyJoin_data] at hmem
  rcases mem_intercalate _ _ hmem with hsep | ⟨l, hl, hc⟩
  · rw [show ("," : String).data = [','] from rfl] at hsep
    exact absurd (List.mem_singleton.mp hsep) (by decide)
  · rcases List.mem_map.mp hl with ⟨e, he, rfl⟩
    exact h e he hc

theorem pyJoin_comma_inj (L1 L2 : List String)
    (h1 : ∀ e ∈ L1, e ≠ "" ∧ ',' ∉ e.data)
    (h2 : ∀ e ∈ L2, e ≠ "" ∧ ',' ∉ e.data)
    (h : pyJoin "," L1 = pyJoin "," L2) : L1 = L2 := by
  have hdata := congrArg String.data h
  rw [pyJoin_data, pyJoin_data,
    show ("," : String).data = [','] from rfl] at hdata
  rcases L1 with _ | ⟨x1, t1⟩ <;> rcases L2 with _ | ⟨x2, t2⟩
  · rfl
  · exfalso
    obtain ⟨r, hr⟩ := intercalate_head [','] x2.data (t2.map String.data)
    rw [List.map_nil, List.map, hr,
      show List.intercalate [','] ([] : List (List Char)) = [] from by
        simp [List.intercalate]] at hdata
    obtain ⟨ha, -⟩ := List.append_eq_nil.mp hdata.symm
    exact (h2 x2 (by simp)).1 (strData_nil ha)
  · exfalso
    obtain ⟨r, hr⟩ := intercalate_head [','] x1.data (t1.map String.data)
    rw [List.map_nil, List.map, hr,
      show List.intercalate [','] ([] : List (List Char)) = [] from by
        simp [List.intercalate]] at hdata
    obtain ⟨ha, -⟩ := List.append_eq_nil.mp hdata
    exact (h1 x1 (by simp)).1 (strData_nil ha)
  · have hM := intercalate_inj_single ','
      (x1.data :: t1.map String.data) (x2.data :: t2.map String.data)
      (by
        intro l hl
        rcases List.mem_cons.mp hl with rfl | hl2
        · exact (h1 x1 (by simp)).2
        · rcases List.mem_map.mp hl2 with ⟨e, he, rfl⟩
          exact (h1 e (by simp [he])).2)
      (by
        intro l hl
        rcases List.mem_cons.mp hl with rfl | hl2
        · exact (h2 x2 (by simp)).2
        · rcases List.mem_map.mp hl2 with ⟨e, he, rfl⟩
          exact (h2 e (by simp [he])).2)
      (by simp) (by simp) (by simpa [List.map] using hdata)
    have hinj : Function.Injective String.data := fun a b hab => strData_inj hab
    have : (x1 :: t1).map String.data = (x2 :: t2).map String.data := by
      simpa [List.map] using hM
    exact List.map_injective_iff.mpr hinj this

/-- C7 counterexample.  Two selectors with different normalized tuples share
one fingerprint: `("a", "b")` and `("a,b")` both render as `"a,b|||||0"`, so
fingerprint equality does not imply tuple equality and the string is not a
collision-free map key. -/
theorem fingerprint_collision_cex :
    RuleSelector.fingerprint { collection_ids := ["a", "b"] } =
      RuleSelector.fingerprint { collection_ids := ["a,b"] } ∧
    ({ collection_ids := ["a", "b"] } : RuleSelector) ≠
      { collection_ids := ["a,b"] } :=
  ⟨rfl, by decide⟩

/-- C7 amended.  Identical normalized tuples always give identical
fingerprints; the converse (collision-freeness) holds for selectors whose
list elements are nonempty and contain neither of the join separators `','`
and `'|'`, and which agree on `only_recent_seconds` (whose `None` and `0`
both render as `"0"`). -/
theorem fingerprint_eq_iff (s1 s2 : RuleSelector)
    (h1 : s1.sepFree) (h2 : s2.sepFree)
    (honly : s1.only_recent_seconds = s2.only_recent_seconds) :
    s1.fingerprint = s2.fingerprint ↔ s1 = s2 := by
  constructor
  · intro hfp
    rcases s1 with ⟨c1, g1, n1, m1, b1, o1⟩
    rcases s2 with ⟨c2, g2, n2, m2, b2, o2⟩
    obtain ⟨h1c, h1g, h1n, h1m, h1b⟩ := h1
    obtain ⟨h2c, h2g, h2n, h2m, h2b⟩ := h2
    have pf : ∀ (s : RuleSelector), s.sepFree →
        ∀ l ∈ ([pyJoin "," s.collection_ids, pyJoin "," s.gift_names,
          pyJoin "," s.name_contains, pyJoin "," s.models,
          pyJoin "," s.backgrounds,
          toString s.onlyRecentOrZero].map String.data), '|' ∉ l := by
      intro s hs l hl
      obtain ⟨hc, hg, hn, hm, hb⟩ := hs
      simp only [List.map, List.mem_cons, List.not_mem_nil, or_false] at hl
      rcases hl with rfl | rfl | rfl | rfl | rfl | rfl
      · exact pyJoin_comma_no_pipe _ (fun e he => (hc e he).2.2)
      · exact pyJoin_comma_no_pipe _ (fun e he => (hg e he).2.2)
      · exact pyJoin_comma_no_pipe _ (fun e he => (hn e he).2.2)
      · exact pyJoin_comma_no_pipe _ (fun e he => (hm e he).2.2)
      · exact pyJoin_comma_no_pipe _ (fun e he => (hb e he).2.2)
      · exact intRepr_no_pipe _
    have hdata := congrArg String.data hfp
    rw [RuleSelector.fingerprint, RuleSelector.fingerprint, pyJoin_data,
      pyJoin_data, show ("|" : String).data = ['|'] from rfl] at hdata
    have hparts := intercalate_inj_single '|' _ _
      (pf ⟨c1, g1, n1, m1, b1, o1⟩ ⟨h1c, h1g, h1n, h1m, h1b⟩)
      (pf ⟨c2, g2, n2, m2, b2, o2⟩ ⟨h2c, h2g, h2n, h2m, h2b⟩)
      (by simp) (by simp) hdata
    simp only [List.map, List.cons.injEq, and_true] at hparts
    obtain ⟨e1, e2, e3, e4, e5, -⟩ := hparts
    have hc := pyJoin_comma_inj _ _
      (fun e he => ⟨(h1c e he).1, (h1c e he).2.1⟩)
      (fun e he => ⟨(h2c e he).1, (h2c e he).2.1⟩) (strData_inj e1)
    have hg := pyJoin_comma_inj _ _
      (fun e he => ⟨(h1g e he).1, (h1g e he).2.1⟩)
      (fun e he => ⟨(h2g e he).1, (h2g e he).2.1⟩) (strData_inj e2)
    have hn := pyJoin_comma_inj _ _
      (fun e he => ⟨(h1n e he).1, (h1n e he).2.1⟩)
      (fun e he => ⟨(h2n e he).1, (h2n e he).2.1⟩) (strData_inj e3)
    have hm := pyJoin_comma_inj _ _
      (fun e he => ⟨(h1m e he).1, (h1m e he).2.1⟩)
      (fun e he => ⟨(h2m e he).1, (h2m e he).2.1⟩) (strData_inj e4)
    have hb := pyJoin_comma_inj _ _
      (fun e he => ⟨(h1b e he).1, (h1b e he).2.1⟩)
      (fun e he => ⟨(h2b e he).1, (h2b e he).2.1⟩) (strData_inj e5)
    simp only [RuleSelector.mk.injEq]
    exact ⟨hc, hg, hn, hm, hb, honly⟩
  · intro h
    rw [h]

theorem fingerprint_eq_iff_witness :
    RuleSelector.fingerprint { collection_ids := ["x"], models := ["m1"] } =
        RuleSelector.fingerprint { collection_ids := ["y"], models := ["m1"] } ↔
      ({ collection_ids := ["x"], models := ["m1"] } : RuleSelector) =
        { collection_ids := ["y"], models := ["m1"] } :=
  fingerprint_eq_iff _ _ (by decide) (by decide) rfl

/-- C6 counterexample.  A strategy document whose single offer rule has all
four min/max pairs inverted (`min_ask=2 > max_ask=1`, `min_floor=5 >
max_floor=3`, `min_offer=9 > max_offer=4`, `min_discount_pct=30 >
max_discount_pct=10`) loads successfully — no config error is raised. -/
theorem load_inverted_minmax_cex :
    (load_rule_sets (invertedDoc 2 1 5 3 9 4 30 10)).isOk = true ∧
    (1 : ℚ) < 2 ∧ (3 : ℚ) < 5 ∧ (4 : ℚ) < 9 ∧ (10 : ℚ) < 30 := by
  refine ⟨rfl, by norm_num, by norm_num, by norm_num, by norm_num⟩

/-- C6 amended.  The loader performs no min/max validation: for arbitrary
values of the four pairs — inverted or not — the strategy document parses
into an `AppConfig` rule set whose single offer rule carries exactly the
given bounds. -/
theorem load_rule_sets_accepts_inverted (q1 q2 q3 q4 q5 q6 q7 q8 : ℚ) :
    load_rule_sets (invertedDoc q1 q2 q3 q4 q5 q6 q7 q8) =
      .ok ([{ name := "r1", enabled := true, mode := "offer",
              selector := { only_recent_seconds := some 60 },
              offer_factor := 85/100, min_offer := q5, max_offer := some q6,
              min_ask := some q1, max_ask := some q2, min_floor := some q3,
              max_floor := some q4, max_listing_to_floor := 125/100,
              min_discount_pct := some q7, max_discount_pct := some q8,
              outbid_step := 1/100, bump_if_outbid := true,
              skip_crafted := true, expiration_days := 7,
              expiration_seconds := none, max_actions_per_cycle := 4 }],
        [], []) := by
  rfl

/-! ## Timestamp lemmas -/

set_option maxHeartbeats 2000000 in
theorem dby_succ (y : ℕ) (hy : 1 ≤ y) :
    _days_before_year (y + 1) = _days_before_year y + daysInYear y := by
  unfold _days_before_year daysInYear isLeap
  split
  · next hL =>
    rw [decide_eq_true_eq] at hL
    omega
  · next hL =>
    simp only [decide_eq_true_eq] at hL
    omega

theorem daysInYear_pos (y : ℕ) : 0 < daysInYear y := by
  unfold daysInYear; split <;> omega

theorem yearSplit_spec : ∀ (n y : ℕ), 1 ≤ y →
    y ≤ (yearSplit y n).1 ∧ (yearSplit y n).2 < daysInYear (yearSplit y n).1 ∧
      _days_before_year (yearSplit y n).1 + (yearSplit y n).2 =
        _days_before_year y + n := by
  intro n
  induction n using Nat.strong_induction_on with
  | _ n ih =>
    intro y hy
    unfold yearSplit
    split
    · exact ⟨le_refl y, by assumption, rfl⟩
    · next hge =>
      have hpos := daysInYear_pos y
      have hlt : n - daysInYear y < n := by omega
      obtain ⟨h1, h2, h3⟩ := ih (n - daysInYear y) hlt (y + 1) (by omega)
      refine ⟨by omega, h2, ?_⟩
      rw [h3, dby_succ y hy]
      omega

theorem dby_mono : ∀ (a b : ℕ), 1 ≤ a → a ≤ b →
    _days_before_year a ≤ _days_before_year b := by
  intro a b ha hab
  induction b with
  | zero => omega
  | succ b ih =>
    rcases Nat.lt_or_ge a (b + 1) with h | h
    · have hb : 1 ≤ b := by omega
      have := dby_succ b hb
      have := ih (by omega)
      omega
    · have : a = b + 1 := by omega
      rw [this]

theorem monthSplit_spec (leap : Bool) :
    ∀ (k m n : ℕ), m + k = 13 → 1 ≤ m →
      sumDim leap (m - 1) + n < sumDim leap 12 →
      1 ≤ (monthSplit leap m n).1 ∧ (monthSplit leap m n).1 ≤ 12 ∧
        (monthSplit leap m n).2 < daysInMonth leap (monthSplit leap m n).1 ∧
        sumDim leap ((monthSplit leap m n).1 - 1) + (monthSplit leap m n).2 =
          sumDim leap (m - 1) + n := by
  intro k
  induction k with
  | zero =>
    intro m n hm h1 hn
    have hm13 : m = 13 := by omega
    subst hm13
    simp only [show (13 : ℕ) - 1 = 12 from rfl] at hn
    omega
  | succ k ih =>
    intro m n hm h1 hn
    unfold monthSplit
    split
    · next h12 =>
      have hm12 : m = 12 := by omega
      subst hm12
      refine ⟨by omega, by omega, ?_, rfl⟩
      have hexp : sumDim leap 12 = sumDim leap 11 + daysInMonth leap 12 := rfl
      simp only [show (12 : ℕ) - 1 = 11 from rfl] at hn
      show n < daysInMonth leap 12
      omega
    · next h12 =>
      split
      · next hlt => exact ⟨by omega, by omega, hlt, rfl⟩
      · next hge =>
        have hexp : sumDim leap m = sumDim leap (m - 1) + daysInMonth leap m := by
          obtain ⟨m2, rfl⟩ : ∃ m2, m = m2 + 1 := ⟨m - 1, by omega⟩
          simp [sumDim]
        have hprem : sumDim leap (m + 1 - 1) + (n - daysInMonth leap m) <
            sumDim leap 12 := by
          simp only [Nat.add_sub_cancel]
          omega
        have hrec := ih (m + 1) (n - daysInMonth leap m) (by omega) (by omega)
          hprem
        simp only [Nat.add_sub_cancel] at hrec
        obtain ⟨a1, a2, a3, a4⟩ := hrec
        exact ⟨by omega, a2, a3, by omega⟩

theorem sumDim_dbm : ∀ (leap : Bool), ∀ m, m < 13 → 1 ≤ m →
    _days_before_month leap m = sumDim leap (m - 1) := by decide

theorem sumDim_twelve : ∀ (leap : Bool),
    sumDim leap 12 = if leap then 366 else 365 := by decide

theorem daysInYear_sumDim (y : ℕ) :
    daysInYear y = sumDim (isLeap y) 12 := by
  rw [sumDim_twelve]
  unfold daysInYear
  rfl

theorem dVal_digitChar : ∀ k, k < 10 → dVal (Nat.digitChar k) = k := by
  decide

theorem digitChar_not_ws : ∀ k, k < 10 →
    (Nat.digitChar k).isWhitespace = false := by
  decide

theorem parseDT_pad (y mo d hh mi ss : ℕ) (rest : List Char)
    (hy : y ≤ 9999) (hmo : mo ≤ 99) (hd : d ≤ 99) (hhh : hh ≤ 99)
    (hmi : mi ≤ 99) (hss : ss ≤ 99) :
    parseDT (pad4 y ++ '-' :: (pad2 mo ++ '-' :: (pad2 d ++ 'T' ::
        (pad2 hh ++ ':' :: (pad2 mi ++ ':' :: (pad2 ss ++ rest)))))) =
      some ((y, mo, d, hh, mi, ss), rest) := by
  have h1 : y / 1000 < 10 := by omega
  have h2 : y / 100 % 10 < 10 := by omega
  have h3 : y / 10 % 10 < 10 := by omega
  have h4 : y % 10 < 10 := by omega
  have h5 : mo / 10 < 10 := by omega
  have h6 : mo % 10 < 10 := by omega
  have h7 : d / 10 < 10 := by omega
  have h8 : d % 10 < 10 := by omega
  have h9 : hh / 10 < 10 := by omega
  have h10 : hh % 10 < 10 := by omega
  have h11 : mi / 10 < 10 := by omega
  have h12 : mi % 10 < 10 := by omega
  have h13 : ss / 10 < 10 := by omega
  have h14 : ss % 10 < 10 := by omega
  simp only [pad4, pad2, List.cons_append, List.nil_append, parseDT,
    List.all_cons, List.all_nil,
    digitChar_isDigit _ h1, digitChar_isDigit _ h2, digitChar_isDigit _ h3,
    digitChar_isDigit _ h4, digitChar_isDigit _ h5, digitChar_isDigit _ h6,
    digitChar_isDigit _ h7, digitChar_isDigit _ h8, digitChar_isDigit _ h9,
    digitChar_isDigit _ h10, digitChar_isDigit _ h11, digitChar_isDigit _ h12,
    digitChar_isDigit _ h13, digitChar_isDigit _ h14,
    Bool.and_true, Bool.true_and, if_true]
  simp only [dVal_digitChar _ h1, dVal_digitChar _ h2, dVal_digitChar _ h3,
    dVal_digitChar _ h4, dVal_digitChar _ h5, dVal_digitChar _ h6,
    dVal_digitChar _ h7, dVal_digitChar _ h8, dVal_digitChar _ h9,
    dVal_digitChar _ h10, dVal_digitChar _ h11, dVal_digitChar _ h12,
    dVal_digitChar _ h13, dVal_digitChar _ h14]
  refine congrArg some (congrArg (fun v => (v, rest)) ?_)
  have e1 : 1000 * (y / 1000) + 100 * (y / 100 % 10) + 10 * (y / 10 % 10) +
      y % 10 = y := by omega
  have e2 : 10 * (mo / 10) + mo % 10 = mo := by omega
  have e3 : 10 * (d / 10) + d % 10 = d := by omega
  have e4 : 10 * (hh / 10) + hh % 10 = hh := by omega
  have e5 : 10 * (mi / 10) + mi % 10 = mi := by omega
  have e6 : 10 * (ss / 10) + ss % 10 = ss := by omega
  rw [e1, e2, e3, e4, e5, e6]

theorem pyStripChars_fixed (a : Char) (mid : List Char)
    (ha : a.isWhitespace = false) :
    pyStripChars (a :: (mid ++ ['Z'])) = a :: (mid ++ ['Z']) := by
  unfold pyStripChars
  rw [List.dropWhile_cons]
  simp only [ha, Bool.false_eq_true, if_false]
  rw [show a :: (mid ++ ['Z']) = (a :: mid) ++ ['Z'] from rfl,
    List.reverse_append]
  simp only [List.reverse_cons, List.reverse_nil, List.nil_append,
    List.singleton_append, List.dropWhile_cons]
  rw [show ('Z').isWhitespace = false from rfl]
  simp

theorem digits_dash_not_all (c1 c2 c3 c4 : Char) (rest : List Char) :
    (([c1, c2, c3, c4] ++ '-' :: rest).all Char.isDigit) = false := by
  simp only [List.all_append, List.all_cons]
  rw [show ('-').isDigit = false from rfl]
  simp

/-- C9. Formatting a whole-second unix timestamp as the spec's ISO-8601
UTC string with `Z` suffix and parsing it back with `parse_unix_ts`
returns exactly the timestamp (for all timestamps whose year has the
four digits ISO-8601 prescribes, i.e. up to 9999-12-31T23:59:59Z). -/
theorem parse_unix_ts_roundtrip (t : ℕ) (ht : t ≤ 253402300799) :
    parse_unix_ts_str (formatIsoZ t) = some (t : ℤ) := by
  rcases hY : yearSplit 1970 (t / 86400) with ⟨y, doy⟩
  obtain ⟨hy1, hy2, hy3⟩ := yearSplit_spec (t / 86400) 1970 (by norm_num)
  rw [hY] at hy1 hy2 hy3
  dsimp only at hy1 hy2 hy3
  rcases hM : monthSplit (isLeap y) 1 doy with ⟨mo, dm⟩
  obtain ⟨hm1, hm2, hm3, hm4⟩ := monthSplit_spec (isLeap y) 12 1 doy
    (by norm_num) (by norm_num)
    (by
      rw [show (1 : ℕ) - 1 = 0 from rfl,
        show sumDim (isLeap y) 0 = 0 from rfl, ← daysInYear_sumDim]
      omega)
  rw [hM] at hm1 hm2 hm3 hm4
  dsimp only at hm1 hm2 hm3 hm4
  rw [show (1 : ℕ) - 1 = 0 from rfl, show sumDim (isLeap y) 0 = 0 from rfl,
    Nat.zero_add] at hm4
  have hdays : t / 86400 ≤ 2932896 := by omega
  have hdby1970 : _days_before_year 1970 = 719162 := by
    norm_num [_days_before_year]
  have hy9999 : y ≤ 9999 := by
    by_contra hgt
    push_neg at hgt
    have hmono := dby_mono 10000 y (by norm_num) (by omega)
    have hdby10000 : _days_before_year 10000 = 3652059 := by
      norm_num [_days_before_year]
    omega
  have hrem : t % 86400 < 86400 := Nat.mod_lt _ (by norm_num)
  have hC : civilFromUnix t = (y, mo, dm + 1, t % 86400 / 3600,
      t % 86400 % 3600 / 60, t % 86400 % 60) := by
    unfold civilFromUnix
    dsimp only
    rw [hY]
    dsimp only
    rw [hM]
  have hfmt : formatIsoZ t = ⟨pad4 y ++ '-' :: (pad2 mo ++ '-' ::
      (pad2 (dm + 1) ++ 'T' :: (pad2 (t % 86400 / 3600) ++ ':' ::
      (pad2 (t % 86400 % 3600 / 60) ++ ':' ::
      (pad2 (t % 86400 % 60) ++ ['Z'])))))⟩ := by
    unfold formatIsoZ
    rw [hC]
  have hstrip : pyStripChars (pad4 y ++ '-' :: (pad2 mo ++ '-' ::
      (pad2 (dm + 1) ++ 'T' :: (pad2 (t % 86400 / 3600) ++ ':' ::
      (pad2 (t % 86400 % 3600 / 60) ++ ':' ::
      (pad2 (t % 86400 % 60) ++ ['Z'])))))) = pad4 y ++ '-' :: (pad2 mo ++
      '-' :: (pad2 (dm + 1) ++ 'T' :: (pad2 (t % 86400 / 3600) ++ ':' ::
      (pad2 (t % 86400 % 3600 / 60) ++ ':' ::
      (pad2 (t % 86400 % 60) ++ ['Z']))))) := by
    have hw := digitChar_not_ws (y / 1000) (by omega)
    have hfix := pyStripChars_fixed (Nat.digitChar (y / 1000))
      ([Nat.digitChar (y / 100 % 10), Nat.digitChar (y / 10 % 10),
        Nat.digitChar (y % 10), '-'] ++ pad2 mo ++ '-' :: (pad2 (dm + 1) ++
        'T' :: (pad2 (t % 86400 / 3600) ++ ':' ::
        (pad2 (t % 86400 % 3600 / 60) ++ ':' :: pad2 (t % 86400 % 60))))) hw
    simp only [pad4, pad2, List.cons_append, List.nil_append,
      List.append_assoc] at hfix ⊢
    exact hfix
  have hnotall : ((pad4 y ++ '-' :: (pad2 mo ++ '-' :: (pad2 (dm + 1) ++
      'T' :: (pad2 (t % 86400 / 3600) ++ ':' ::
      (pad2 (t % 86400 % 3600 / 60) ++ ':' ::
      (pad2 (t % 86400 % 60) ++ ['Z'])))))).all Char.isDigit) = false := by
    have hdd := digits_dash_not_all (Nat.digitChar (y / 1000))
      (Nat.digitChar (y / 100 % 10)) (Nat.digitChar (y / 10 % 10))
      (Nat.digitChar (y % 10)) (pad2 mo ++ '-' :: (pad2 (dm + 1) ++ 'T' ::
      (pad2 (t % 86400 / 3600) ++ ':' :: (pad2 (t % 86400 % 3600 / 60) ++
      ':' :: (pad2 (t % 86400 % 60) ++ ['Z'])))))
    simp only [pad4, List.cons_append, List.nil_append] at hdd ⊢
    exact hdd
  have hparse := parseDT_pad y mo (dm + 1) (t % 86400 / 3600)
    (t % 86400 % 3600 / 60) (t % 86400 % 60) ['Z'] hy9999 (by omega)
    (by
      have hdim : daysInMonth (isLeap y) mo ≤ 31 := by
        unfold daysInMonth
        split
        · split <;> omega
        · split <;> omega
      omega)
    (by omega) (by omega) (by omega)
  have hvalid : validDT y mo (dm + 1) (t % 86400 / 3600)
      (t % 86400 % 3600 / 60) (t % 86400 % 60) = true := by
    apply decide_eq_true
    refine ⟨by omega, hy9999, hm1, hm2, by omega, by omega, by omega,
      by omega, by omega⟩
  have htoord : toordinal y mo (dm + 1) = 719163 + t / 86400 := by
    unfold toordinal
    rw [sumDim_dbm (isLeap y) mo (by omega) hm1]
    omega
  have hts : datetimeTimestamp y mo (dm + 1) (t % 86400 / 3600)
      (t % 86400 % 3600 / 60) (t % 86400 % 60) = (t : ℤ) := by
    unfold datetimeTimestamp
    rw [htoord]
    push_cast
    omega
  unfold parse_unix_ts_str
  rw [hfmt]
  rw [show pyStrip ⟨pad4 y ++ '-' :: (pad2 mo ++ '-' :: (pad2 (dm + 1) ++
      'T' :: (pad2 (t % 86400 / 3600) ++ ':' ::
      (pad2 (t % 86400 % 3600 / 60) ++ ':' ::
      (pad2 (t % 86400 % 60) ++ ['Z'])))))⟩ = ⟨pad4 y ++ '-' :: (pad2 mo ++
      '-' :: (pad2 (dm + 1) ++ 'T' :: (pad2 (t % 86400 / 3600) ++ ':' ::
      (pad2 (t % 86400 % 3600 / 60) ++ ':' ::
      (pad2 (t % 86400 % 60) ++ ['Z'])))))⟩ from by
    unfold pyStrip
    exact congrArg String.mk hstrip]
  dsimp only
  rw [hnotall]
  have hne : ¬ (pad4 y ++ '-' :: (pad2 mo ++ '-' :: (pad2 (dm + 1) ++ 'T' ::
      (pad2 (t % 86400 / 3600) ++ ':' :: (pad2 (t % 86400 % 3600 / 60) ++
      ':' :: (pad2 (t % 86400 % 60) ++ ['Z'])))))) = [] := by
    simp [pad4]
  rw [if_neg hne]
  simp only [Bool.false_eq_true, if_false]
  have hf1 : tryFormat strptimeFmt1 (pad4 y ++ '-' :: (pad2 mo ++ '-' ::
      (pad2 (dm + 1) ++ 'T' :: (pad2 (t % 86400 / 3600) ++ ':' ::
      (pad2 (t % 86400 % 3600 / 60) ++ ':' ::
      (pad2 (t % 86400 % 60) ++ ['Z'])))))) = none := by
    unfold tryFormat strptimeFmt1
    rw [hparse]
    rfl
  have hf2 : tryFormat strptimeFmt2 (pad4 y ++ '-' :: (pad2 mo ++ '-' ::
      (pad2 (dm + 1) ++ 'T' :: (pad2 (t % 86400 / 3600) ++ ':' ::
      (pad2 (t % 86400 % 3600 / 60) ++ ':' ::
      (pad2 (t % 86400 % 60) ++ ['Z'])))))) = some ((t : ℤ)) := by
    unfold tryFormat strptimeFmt2
    rw [hparse]
    show (if validDT y mo (dm + 1) (t % 86400 / 3600) (t % 86400 % 3600 / 60)
        (t % 86400 % 60) = true then
        some (datetimeTimestamp y mo (dm + 1) (t % 86400 / 3600)
          (t % 86400 % 3600 / 60) (t % 86400 % 60))
      else none) = some ((t : ℤ))
    simp [hvalid, hts]
  rw [hf1, hf2]

theorem parse_unix_ts_roundtrip_witness :
    parse_unix_ts_str (formatIsoZ 1700000000) = some ((1700000000 : ℤ)) :=
  parse_unix_ts_roundtrip 1700000000 (by norm_num)
